import Mathlib

/-!
Verification of the `jsonapi-frontend-client` package (sources: `src/routes.ts`,
`src/url.ts`, `src/media.ts`, `src/types.ts`).

The embedding models JavaScript runtime values with the inductive `JsValue`
(JSON values plus `undefined`), so that the dynamic checks of the source
(`typeof`, truthiness, strict comparison with `null`) are reproduced exactly.
String scanning (`indexOf`, `startsWith`, `replace`, the two literal regexes
of `media.ts`) is implemented over `List Char` by structural recursion so that
every definition evaluates inside the kernel.

The package's transport layer (`transport.ts`: env-based base-URL lookup,
header merging, fetch injection) is outside the repository's core per the
specification; the resolved base URL / base origin is passed explicitly as a
parameter, and the network is modelled as a function from the request URL to a
response.
-/

/-- A JavaScript runtime value as produced by `JSON.parse`, plus `undefined`
(which is what property access on a missing key yields). -/
inductive JsValue where
  | undefined : JsValue
  | null : JsValue
  | bool : Bool → JsValue
  | num : Int → JsValue
  | str : String → JsValue
  | arr : List JsValue → JsValue
  | obj : List (String × JsValue) → JsValue

/-- JavaScript truthiness: `undefined`, `null`, `false`, `0` and the empty
string are falsy; every object (including `[]` and `{}`) is truthy. -/
def jsTruthy : JsValue → Bool
  | .undefined => false
  | .null => false
  | .bool b => b
  | .num n => n != 0
  | .str s => s ≠ ""
  | .arr _ => true
  | .obj _ => true

/-- Model of `typeof v === "object"` — true for `null`, arrays and plain objects. -/
def jsTypeofObject : JsValue → Bool
  | .null => true
  | .arr _ => true
  | .obj _ => true
  | _ => false

/-- First binding of a key in an object's field list (later duplicates are
shadowed, as in a JS object literal); `undefined` when absent. -/
def jsGet : List (String × JsValue) → String → JsValue
  | [], _ => .undefined
  | (k, v) :: rest, key => if k = key then v else jsGet rest key

/-- Optional-chained property access `v?.k`: yields `undefined` unless `v` is
an object holding the key. (Arrays and primitives have none of the property
names this code reads.) -/
def jsField : JsValue → String → JsValue
  | .obj fields, key => jsGet fields key
  | _, _ => .undefined

/-- JS logical or `a || b`: `a` when truthy, else `b`. -/
def jsOr (a b : JsValue) : JsValue :=
  if jsTruthy a then a else b

/-- The character class of the JS `\s` regex escape and of `String.prototype.trim`. -/
def jsWhitespace (c : Char) : Bool :=
  c = Char.ofNat 9 || c = Char.ofNat 10 || c = Char.ofNat 11 || c = Char.ofNat 12 ||
  c = Char.ofNat 13 || c = Char.ofNat 32 || c = Char.ofNat 160 || c = Char.ofNat 0x1680 ||
  (0x2000 ≤ c.toNat && c.toNat ≤ 0x200A) || c = Char.ofNat 0x2028 || c = Char.ofNat 0x2029 ||
  c = Char.ofNat 0x202F || c = Char.ofNat 0x205F || c = Char.ofNat 0x3000 || c = Char.ofNat 0xFEFF

/-- Model of `String.prototype.trim`. -/
def jsTrim (s : String) : String :=
  String.mk (((s.data.dropWhile jsWhitespace).reverse.dropWhile jsWhitespace).reverse)

/-- Is `pat` a prefix of `s` (character lists)? -/
def leadsList : List Char → List Char → Bool
  | [], _ => true
  | _ :: _, [] => false
  | p :: ps, c :: cs => p = c && leadsList ps cs

/-- Model of `String.prototype.startsWith`. -/
def strStarts (s pat : String) : Bool :=
  leadsList pat.data s.data

/-- If `pat` is a prefix of `s`, the remainder of `s` after it. -/
def subStrip : List Char → List Char → Option (List Char)
  | [], s => some s
  | _ :: _, [] => none
  | p :: ps, c :: cs => if p = c then subStrip ps cs else none

/-- Model of `String.prototype.indexOf` on character lists: the least index at which
`pat` occurs in `s`. -/
def subIndex (pat : List Char) : List Char → Option Nat
  | [] => if pat.isEmpty then some 0 else none
  | c :: cs =>
    if leadsList pat (c :: cs) then some 0
    else (subIndex pat cs).map (· + 1)

/-- Model of `String.prototype.includes` on character lists. -/
def containsSub (s pat : List Char) : Bool :=
  (subIndex pat s).isSome

/-- Model of `String.prototype.replace` with a plain-string pattern: replace the first
occurrence of `pat` (helper returning `none` when `pat` does not occur). -/
def replFirstAux (pat repl : List Char) : List Char → Option (List Char)
  | [] =>
    match subStrip pat [] with
    | some rest => some (repl ++ rest)
    | none => none
  | c :: cs =>
    match subStrip pat (c :: cs) with
    | some rest => some (repl ++ rest)
    | none => (replFirstAux pat repl cs).map (c :: ·)

/-- Model of `s.replace(pat, repl)` for a plain-string `pat` (first occurrence only). -/
def replaceFirst (s pat repl : String) : String :=
  match replFirstAux pat.data repl.data s.data with
  | some r => String.mk r
  | none => s

/-! ## `src/url.ts` — file URL resolution and image-style derivative URLs -/

/-- Model of `resolveFileUrl` (url.ts lines 15–38). The configured Drupal base URL is
passed explicitly (`getDrupalBaseUrlFromOptions` is transport-layer). `none`
models the `null`/`undefined` inputs allowed by the signature. -/
def resolveFileUrl (url? : Option String) (base : String) : Option String :=
  match url? with
  | none => none
  | some url =>
    if url = "" then none
    else if strStarts url ("http://") || strStarts url ("https://") then some url
    else if strStarts url ("data:") then some url
    else if strStarts url ("//") then some ("https:" ++ url)
    else some (base ++ (if strStarts url ("/") then url else "/" ++ url))

/-- The pattern `"/styles/"` used by `getImageStyleUrl`. -/
def stylesPat : List Char := ("/styles/").data

/-- The pattern `"/files/"` used by `getImageStyleUrl`. -/
def filesPat : List Char := ("/files/").data

/-- Does the regex `\/styles\/[^\/]+\//` match at the head of `l`? If so,
return the matched span (`"/styles/" ++ seg ++ "/"`) and the remainder of `l`
after it. The greedy `[^/]+` must be non-empty and be followed by a `/`. -/
def styleMatchAt (l : List Char) : Option (List Char × List Char) :=
  if leadsList stylesPat l then
    let rest := l.drop 8
    let seg := rest.takeWhile (fun c => c ≠ '/')
    if seg.isEmpty then none
    else
      match rest.drop seg.length with
      | c :: cs => if c = '/' then some (stylesPat ++ seg ++ [c], cs) else none
      | [] => none
  else none

/-- The ECMAScript GetSubstitution step applied by `String.prototype.replace`
to a STRING replacement: in the replacement text, a dollar followed by
another dollar yields one dollar, by an ampersand yields the matched span,
by a backquote (code 96) yields the part of the subject before the match,
and by an apostrophe (code 39) yields the part after the match; any other
dollar (including the digit forms, since this regex has no capture groups,
and the angle form, since it has no named groups) passes through literally
together with the character after it, which can start no form of its own.
Inserted text is not rescanned. -/
def getSubstitution (matched before after : List Char) : List Char → List Char
  | [] => []
  | c :: rest =>
    if c = '$' then
      match rest with
      | [] => [c]
      | d :: rest2 =>
        if d = '$' then '$' :: getSubstitution matched before after rest2
        else if d = '&' then matched ++ getSubstitution matched before after rest2
        else if d = Char.ofNat 96 then before ++ getSubstitution matched before after rest2
        else if d = Char.ofNat 39 then after ++ getSubstitution matched before after rest2
        else '$' :: d :: getSubstitution matched before after rest2
    else c :: getSubstitution matched before after rest

/-- The scan of `resolved.replace(/\/styles\/[^\/]+\//, "/styles/" + style + "/")`:
find the leftmost match of the regex and replace the matched span by the
GetSubstitution expansion of the replacement string; `none` when the regex
never matches. `acc` holds the scanned-over prefix in reverse, which the
substitution needs for the before-match form. -/
def stylesSegReplaceAux (style : List Char) (acc : List Char) : List Char → Option (List Char)
  | [] => none
  | c :: cs =>
    match styleMatchAt (c :: cs) with
    | some (matched, rest) =>
      some (getSubstitution matched acc.reverse rest (stylesPat ++ style ++ ['/']) ++ rest)
    | none =>
      match stylesSegReplaceAux style (c :: acc) cs with
      | some r => some (c :: r)
      | none => none

/-- Model of `resolved.replace(/\/styles\/[^\/]+\//, "/styles/" + style + "/")`
(url.ts line 67), with ECMAScript string-replacement substitution semantics. -/
def stylesSegReplace (style : List Char) (l : List Char) : Option (List Char) :=
  stylesSegReplaceAux style [] l

/-- Model of `getImageStyleUrl` (url.ts lines 60–79). -/
def getImageStyleUrl (originalUrl style base : String) : String :=
  match resolveFileUrl (some originalUrl) base with
  | none => originalUrl
  | some resolved =>
    if containsSub resolved.data stylesPat then
      match stylesSegReplace style.data resolved.data with
      | some r => String.mk r
      | none => resolved
    else
      match subIndex filesPat resolved.data with
      | some i =>
        String.mk (resolved.data.take (i + 7) ++ ("styles/").data ++ style.data ++
          ("/public/").data ++ resolved.data.drop (i + 7))
      | none => resolved

/-! ## `src/routes.ts` — origin guard, page normalization, pagination -/

/-- A parsed WHATWG URL as handled by the `URL` class: scheme (lower-case, no
colon), host, optional explicit port, path, and query parameters. -/
structure Url where
  scheme : String
  host : String
  port : Option Nat
  path : String
  query : List (String × String)
deriving DecidableEq

/-- The WHATWG special schemes that get a tuple origin (`file` is special too
but its origin is opaque). -/
def specialScheme (s : String) : Bool :=
  s = "ftp" || s = "http" || s = "https" || s = "ws" || s = "wss"

/-- Default port of a special scheme, omitted from the origin serialization. -/
def schemeDefaultPort (s : String) : Option Nat :=
  if s = "http" || s = "ws" then some 80
  else if s = "https" || s = "wss" then some 443
  else if s = "ftp" then some 21
  else none

/-- The `URL.prototype.origin` getter: `scheme://host[:port]` for special
schemes (the port omitted when it is the scheme's default), and the opaque
origin serialization `"null"` for every other scheme. -/
def Url.origin (u : Url) : String :=
  if specialScheme u.scheme then
    match u.port with
    | none => u.scheme ++ "://" ++ u.host
    | some p =>
      if schemeDefaultPort u.scheme = some p then u.scheme ++ "://" ++ u.host
      else u.scheme ++ "://" ++ u.host ++ ":" ++ Nat.repr p
  else "null"

/-- The `URL.prototype.protocol` getter (`scheme` plus a colon). -/
def Url.protocol (u : Url) : String :=
  u.scheme ++ ":"

/-- The string argument of `new URL(input, base)`, pre-parsed: either an
absolute URL (which overrides the base entirely) or a path-absolute relative
reference (which keeps the base's scheme, host and port). -/
inductive UrlRef where
  | absolute : Url → UrlRef
  | relative : String → List (String × String) → UrlRef

/-- Model of `new URL(input, baseUrl)`: resolution of a reference against a base. -/
def resolveAgainst (input : UrlRef) (base : Url) : Url :=
  match input with
  | .absolute u => u
  | .relative p q => { scheme := base.scheme, host := base.host, port := base.port, path := p, query := q }

/-- The error taxonomy of the routes module. The source throws plain `Error`s;
the constructors here mirror the distinct throw sites (origin mismatch,
unsupported protocol, non-ok HTTP response, invalid feed JSON, maxPages
overrun). -/
inductive RoutesError where
  | originMismatch : String → String → RoutesError
  | unsupportedScheme : String → RoutesError
  | requestFailed : Nat → String → RoutesError
  | feedFormat : RoutesError
  | overrun : RoutesError
deriving DecidableEq

/-- Model of `buildRoutesUrl` (routes.ts lines 4–20): resolve the input against the
base, reject a differing origin, then reject a non-http(s) protocol. -/
def buildRoutesUrl (input : UrlRef) (base : Url) : Except RoutesError Url :=
  let url := resolveAgainst input base
  if Url.origin url ≠ Url.origin base then
    .error (.originMismatch (Url.origin url) (Url.origin base))
  else if Url.protocol url ≠ "http:" ∧ Url.protocol url ≠ "https:" then
    .error (.unsupportedScheme (Url.protocol url))
  else .ok url

/-- A successfully normalized routes feed entry (the union type
`RoutesFeedItem` of types.ts: `kind: "entity"` carries `jsonapi_url` and a
`null` `data_url`; `kind: "view"` the reverse). -/
inductive RoutesFeedItem where
  | entity : String → String → RoutesFeedItem
  | view : String → String → RoutesFeedItem
deriving DecidableEq

/-- The normalization of a single raw feed item, split out over its four
extracted fields (`item.path`, `item.kind`, `item.jsonapi_url`,
`item.data_url`) — the body of `normalizeRoutesItem` after the object guard. -/
def normalizeRoutesFields (path kind ju du : JsValue) : Option RoutesFeedItem :=
  match path with
  | .str p =>
    if jsTrim p = "" then none
    else if !(strStarts p ("/")) then none
    else
      match kind with
      | .str k =>
        if k = "entity" then
          match ju with
          | .str j =>
            if jsTrim j = "" then none
            else
              match du with
              | .null => some (.entity p j)
              | _ => none
          | _ => none
        else if k = "view" then
          match du with
          | .str d =>
            if jsTrim d = "" then none
            else
              match ju with
              | .null => some (.view p d)
              | _ => none
          | _ => none
        else none
      | _ => none
  | _ => none

/-- Model of `normalizeRoutesItem` (routes.ts lines 22–47). The guard
`!value || typeof value !== "object"` admits exactly arrays and objects. -/
def normalizeRoutesItem (value : JsValue) : Option RoutesFeedItem :=
  if !(jsTruthy value && jsTypeofObject value) then none
  else
    normalizeRoutesFields (jsField value ("path")) (jsField value ("kind"))
      (jsField value ("jsonapi_url")) (jsField value ("data_url"))

/-- Model of `getNextLink` (routes.ts lines 49–53). -/
def getNextLink (links : JsValue) : Option String :=
  if !(jsTruthy links && jsTypeofObject links) then none
  else
    match jsField links ("next") with
    | .str s => if jsTrim s = "" then none else some s
    | _ => none

/-- The value `fetchRoutesPage` resolves with (`RoutesFeedResponse` of
types.ts, with the `links` object flattened to its two read fields). -/
structure RoutesFeedResponse where
  data : List RoutesFeedItem
  self : Option String
  next : Option String
  meta : Option JsValue

/-- The response-body processing of `fetchRoutesPage` (routes.ts lines
125–144): reject a falsy or non-object body, read `data` (any non-array
becomes the empty list), normalize and filter the items, and extract
`links.self`, `links.next` and `meta`. -/
def parseRoutesBody (doc : JsValue) : Except RoutesError RoutesFeedResponse :=
  if !(jsTruthy doc && jsTypeofObject doc) then .error .feedFormat
  else
    let rawItems := match jsField doc ("data") with
      | .arr xs => xs
      | _ => []
    let items := rawItems.filterMap normalizeRoutesItem
    let links := jsField doc ("links")
    let meta := jsField doc ("meta")
    .ok {
      data := items
      self := match jsField links ("self") with
        | .str s => some s
        | _ => none
      next := getNextLink links
      meta := if jsTruthy meta && jsTypeofObject meta then some meta else none }

/-- Model of `u.searchParams.set(key, val)`. (Parameter ordering inside the query is
irrelevant to every claim.) -/
def setParam (u : Url) (key val : String) : Url :=
  { u with query := u.query.filter (fun kv => kv.fst ≠ key) ++ [(key, val)] }

/-- The request-URL construction of `fetchRoutesPage` (routes.ts lines
87–97): an explicit pagination URL is validated as-is, otherwise the
first-page URL `/jsonapi/routes` is built with `_format`, `page[limit]`
(default 50) and the optional `langcode` parameters. -/
def routesRequestUrl (base : Url) (urlInput : Option UrlRef) (limit : Option Nat)
    (langcode : Option String) : Except RoutesError Url :=
  match urlInput with
  | some ref => buildRoutesUrl ref base
  | none =>
    match buildRoutesUrl (.relative ("/jsonapi/routes") []) base with
    | .error e => .error e
    | .ok u =>
      let u1 := setParam u ("_format") ("json")
      let u2 := setParam u1 ("page[limit]") (Nat.repr (limit.getD 50))
      .ok (match langcode with
        | some l => setParam u2 ("langcode") l
        | none => u2)

/-- The response object a fetch resolves with, restricted to the members the
routes module reads (`ok`, `status`, `statusText`, and the parsed JSON body). -/
structure FetchResponse where
  ok : Bool
  status : Nat
  statusText : String
  body : JsValue

/-- Model of `fetchRoutesPage` (routes.ts lines 61–145) with the transport injected as
a pure function from the request URL to its response. Header assembly and the
cache directive (lines 99–117) only shape the outgoing request `init` and are
not modelled: no claim concerns them. The URL guard runs before the transport
is ever consulted. -/
def fetchRoutesPage (server : Url → FetchResponse) (base : Url) (urlInput : Option UrlRef)
    (limit : Option Nat) (langcode : Option String) : Except RoutesError RoutesFeedResponse :=
  match routesRequestUrl base urlInput limit langcode with
  | .error e => .error e
  | .ok url =>
    let res := server url
    if !res.ok then .error (.requestFailed res.status res.statusText)
    else parseRoutesBody res.body

/-- The cursor-following loop shared by `iterateRoutes` and `collectRoutes`
(routes.ts lines 150–182), with `fetchRoutesPage` applied to the inherited
options abstracted into `pageFn : Option String → ...` (the cursor is the
`url` option; `none` is the first page). The fuel argument is the number of
remaining loop iterations (`maxPages - i`); exhausting it is the
`maxPages`-exceeded throw. A page's items are emitted in order before the next
page is fetched, and the loop stops when `links.next` is falsy. -/
def collectRoutesAux (pageFn : Option String → Except RoutesError RoutesFeedResponse) :
    Nat → Option String → Except RoutesError (List RoutesFeedItem)
  | 0, _ => .error .overrun
  | n + 1, cursor =>
    match pageFn cursor with
    | .error e => .error e
    | .ok page =>
      match page.next with
      | none => .ok page.data
      | some s =>
        if s = "" then .ok page.data
        else
          match collectRoutesAux pageFn n (some s) with
          | .error e => .error e
          | .ok rest => .ok (page.data ++ rest)

/-- Model of `collectRoutes` (routes.ts lines 174–182): drive the iteration to
completion, with `maxPages` defaulting to 10000 at the call sites. -/
def collectRoutes (pageFn : Option String → Except RoutesError RoutesFeedResponse)
    (maxPages : Nat) : Except RoutesError (List RoutesFeedItem) :=
  collectRoutesAux pageFn maxPages none

/-! ## `src/media.ts` — resource graph normalizer -/

/-- A JSON:API resource identifier object `{type, id}`, optionally carrying
inline `meta` (types.ts `JsonApiRelationship.data` elements). -/
structure ResourceIdentifier where
  type : String
  id : String
  meta : Option (List (String × JsValue))

/-- The `data` member of a relationship: a single reference, an ordered list
of references, or `null`. -/
inductive RelData where
  | null : RelData
  | single : ResourceIdentifier → RelData
  | many : List ResourceIdentifier → RelData

/-- Model of `JsonApiRelationship` of types.ts (the unread `links` member omitted). -/
structure JsonApiRelationship where
  data : RelData

/-- Model of `JsonApiResource` of types.ts. Attribute values are runtime `JsValue`s —
the TypeScript casts in media.ts do not check them, which matters below. The
unread `links` member is omitted. -/
structure JsonApiResource where
  type : String
  id : String
  attributes : Option (List (String × JsValue))
  relationships : Option (List (String × JsonApiRelationship))

/-- Model of `attrs?.key` for an optional attributes record. -/
def attrGet (attrs : Option (List (String × JsValue))) (key : String) : JsValue :=
  match attrs with
  | none => .undefined
  | some fields => jsGet fields key

/-- Model of `relationships?.[name]` for an optional relationships record. -/
def relGet (rels : Option (List (String × JsonApiRelationship))) (key : String) :
    Option JsonApiRelationship :=
  match rels with
  | none => none
  | some [] => none
  | some ((k, v) :: rest) => if k = key then some v else relGet (some rest) key

/-- Model of `findIncluded` (media.ts lines 22–28). -/
def findIncluded (included : Option (List JsonApiResource)) (type id : String) :
    Option JsonApiResource :=
  match included with
  | none => none
  | some l => l.find? (fun item => item.type = type && item.id = id)

/-- Model of `findIncludedByRelationship` (media.ts lines 30–38): `undefined` for a
missing relationship, a `null` `data`, or an array-valued `data`. -/
def findIncludedByRelationship (included : Option (List JsonApiResource))
    (relationship : Option JsonApiRelationship) : Option JsonApiResource :=
  match relationship with
  | none => none
  | some rel =>
    match rel.data with
    | .null => none
    | .many _ => none
    | .single ref => findIncluded included ref.type ref.id

/-- A JavaScript runtime exception (here always the `TypeError` raised by
calling a string method on a non-string). -/
inductive JsError where
  | typeError : JsError
deriving DecidableEq

/-- The expression `file.attributes.uri?.url || file.attributes.uri?.value ||
file.attributes.url` of `getFileUrl` (url.ts line 53). -/
def fileUrlRaw (fields : List (String × JsValue)) : JsValue :=
  jsOr (jsField (jsGet fields ("uri")) ("url"))
    (jsOr (jsField (jsGet fields ("uri")) ("value")) (jsGet fields ("url")))

/-- Model of `resolveFileUrl` applied to an arbitrary runtime value, as `getFileUrl`
does: a falsy argument returns `null`; a non-empty string is resolved; any
other truthy value reaches `url.startsWith(...)` and throws a `TypeError`. -/
def resolveFileUrlJs (v : JsValue) (base : String) : Except JsError (Option String) :=
  if !(jsTruthy v) then .ok none
  else
    match v with
    | .str s => .ok (resolveFileUrl (some s) base)
    | _ => .error .typeError

/-- Model of `getFileUrl` (url.ts lines 40–55); throws exactly when the selected
url-ish attribute value is truthy but not a string. -/
def getFileUrl (file : Option JsonApiResource) (base : String) : Except JsError (Option String) :=
  match file with
  | none => .ok none
  | some f =>
    match f.attributes with
    | none => .ok none
    | some fields => resolveFileUrlJs (fileUrlRaw fields) base

/-- Model of `DrupalImageData` of media.ts. `src` is a genuine string (it comes out of
`resolveFileUrl`); the other fields hold whatever runtime values the
unchecked casts produce, with `undefined` for an unset optional field. -/
structure DrupalImageData where
  src : String
  alt : JsValue
  width : JsValue
  height : JsValue
  title : JsValue

/-- Model of `DrupalMediaData` of media.ts, with `type` the closed kind tag, `undefined`
for unset optional members, and `url = null` mirroring the initialised
`url: null`. -/
structure DrupalMediaData where
  type : String
  name : JsValue
  url : JsValue
  image : Option DrupalImageData
  mimeType : JsValue
  embedUrl : JsValue
  resource : JsonApiResource

/-- Model of `extractImageFromFile` (media.ts lines 55–73). Width and height are
dropped (set `undefined`) whenever the file carries a truthy
`image_style_uri` attribute. -/
def extractImageFromFile (file : Option JsonApiResource) (base : String) :
    Except JsError (Option DrupalImageData) :=
  match file with
  | none => .ok none
  | some f =>
    match getFileUrl (some f) base with
    | .error e => .error e
    | .ok none => .ok none
    | .ok (some url) =>
      let attrs := f.attributes
      .ok (some {
        src := url
        alt := jsOr (attrGet attrs ("filename")) (.str "")
        width := if jsTruthy (attrGet attrs ("image_style_uri")) then .undefined
          else attrGet attrs ("width")
        height := if jsTruthy (attrGet attrs ("image_style_uri")) then .undefined
          else attrGet attrs ("height")
        title := .undefined })

/-- Model of `getRelationshipMetaString` (media.ts lines 75–85): a relationship-level
meta value, only when the single reference carries it as a non-blank string. -/
def getRelationshipMetaString (relationship : Option JsonApiRelationship) (key : String) :
    Option String :=
  match relationship with
  | none => none
  | some rel =>
    match rel.data with
    | .null => none
    | .many _ => none
    | .single ref =>
      match ref.meta with
      | none => none
      | some m =>
        match jsGet m key with
        | .str s => if jsTrim s = "" then none else some s
        | _ => none

/-- A character of the capture class `[a-zA-Z0-9_-]` of the YouTube regex. -/
def ytIdChar (c : Char) : Bool :=
  c.isAlpha || c.isDigit || c = '_' || c = '-'

/-- Does the YouTube regex
`(?:youtube\.com\/(?:watch\?v=|embed\/)|youtu\.be\/)([a-zA-Z0-9_-]+)` match at
the head of `l`? Returns the captured id. The three literal alternatives are
mutually exclusive, and the capture demands at least one id character. -/
def ytMatchAt (l : List Char) : Option (List Char) :=
  match subStrip (("youtube.com/watch?v=").data) l with
  | some rest =>
    let id := rest.takeWhile ytIdChar
    if id.isEmpty then none else some id
  | none =>
    match subStrip (("youtube.com/embed/").data) l with
    | some rest =>
      let id := rest.takeWhile ytIdChar
      if id.isEmpty then none else some id
    | none =>
      match subStrip (("youtu.be/").data) l with
      | some rest =>
        let id := rest.takeWhile ytIdChar
        if id.isEmpty then none else some id
      | none => none

/-- Does the Vimeo regex `vimeo\.com\/(\d+)` match at the head of `l`? -/
def vimeoMatchAt (l : List Char) : Option (List Char) :=
  match subStrip (("vimeo.com/").data) l with
  | some rest =>
    let digits := rest.takeWhile Char.isDigit
    if digits.isEmpty then none else some digits
  | none => none

/-- Leftmost match: try the head matcher at every suffix, left to right —
exactly the search order of `String.prototype.match` with a non-anchored
regex. -/
def scanFirst (f : List Char → Option (List Char)) : List Char → Option (List Char)
  | [] => none
  | c :: cs =>
    match f (c :: cs) with
    | some r => some r
    | none => scanFirst f cs

/-- Model of `getVideoEmbedUrl` (media.ts lines 221–233). -/
def getVideoEmbedUrl (url : String) : Option String :=
  match scanFirst ytMatchAt url.data with
  | some id => some ("https://www.youtube.com/embed/" ++ String.mk id)
  | none =>
    match scanFirst vimeoMatchAt url.data with
    | some digits => some ("https://player.vimeo.com/video/" ++ String.mk digits)
    | none => none

/-- Conversion of `Option String` to the JS value it stands for (`undefined` when absent). -/
def optToJs : Option String → JsValue
  | none => .undefined
  | some s => .str s

/-- Conversion of `Option String` to the JS value `getFileUrl` results are assigned to
(`null` when absent, as in `result.url = getFileUrl(file)`). -/
def optToJsNull : Option String → JsValue
  | none => .null
  | some s => .str s

/-- Model of `extractMedia` (media.ts lines 87–186): dispatch on the bundle name
obtained by `media.type.replace("media--", "")` and fill the descriptor,
starting from the `unknown` skeleton `{type: "unknown", name, url: null}`.
Throws exactly where the JS throws: deriving a file URL from a truthy
non-string attribute, or pattern-matching a truthy non-string oEmbed value. -/
def extractMedia (media? : Option JsonApiResource) (included : Option (List JsonApiResource))
    (base : String) : Except JsError (Option DrupalMediaData) :=
  match media? with
  | none => .ok none
  | some media =>
    let attrs := media.attributes
    let rels := media.relationships
    let name := jsOr (attrGet attrs ("name")) (.str "")
    let mediaType := replaceFirst media.type ("media--") ("")
    let base0 : DrupalMediaData :=
      { type := "unknown", name := name, url := .null, image := none,
        mimeType := .undefined, embedUrl := .undefined, resource := media }
    if mediaType = "image" then
      let fileRel := relGet rels ("field_media_image")
      match findIncludedByRelationship included fileRel with
      | none => .ok (some { base0 with type := "image" })
      | some f =>
        match extractImageFromFile (some f) base with
        | .error e => .error e
        | .ok none => .ok (some { base0 with type := "image" })
        | .ok (some imageData) =>
          let alt := getRelationshipMetaString fileRel ("alt")
          let title := getRelationshipMetaString fileRel ("title")
          .ok (some { base0 with
            type := "image"
            url := .str imageData.src
            image := some { imageData with
              alt := jsOr (optToJs alt) (jsOr imageData.alt name)
              title := jsOr (optToJs title) imageData.title } })
    else if mediaType = "video" then
      match findIncludedByRelationship included (relGet rels ("field_media_video_file")) with
      | none => .ok (some { base0 with type := "video" })
      | some f =>
        match getFileUrl (some f) base with
        | .error e => .error e
        | .ok u =>
          .ok (some { base0 with
            type := "video"
            url := optToJsNull u
            mimeType := jsOr (attrGet f.attributes ("filemime")) (.str "video/mp4") })
    else if mediaType = "remote_video" then
      let videoUrl := attrGet attrs ("field_media_oembed_video")
      if jsTruthy videoUrl then
        match videoUrl with
        | .str s =>
          .ok (some { base0 with
            type := "remote_video"
            url := videoUrl
            embedUrl := optToJs (getVideoEmbedUrl s) })
        | _ => .error .typeError
      else .ok (some { base0 with type := "remote_video", url := .null })
    else if mediaType = "file" ∨ mediaType = "document" then
      let fileRel := match relGet rels ("field_media_file") with
        | some r => some r
        | none => relGet rels ("field_media_document")
      match findIncludedByRelationship included fileRel with
      | none => .ok (some { base0 with type := "file" })
      | some f =>
        match getFileUrl (some f) base with
        | .error e => .error e
        | .ok u =>
          .ok (some { base0 with
            type := "file"
            url := optToJsNull u
            mimeType := attrGet f.attributes ("filemime") })
    else if mediaType = "audio" then
      match findIncludedByRelationship included (relGet rels ("field_media_audio_file")) with
      | none => .ok (some { base0 with type := "audio" })
      | some f =>
        match getFileUrl (some f) base with
        | .error e => .error e
        | .ok u =>
          .ok (some { base0 with
            type := "audio"
            url := optToJsNull u
            mimeType := jsOr (attrGet f.attributes ("filemime")) (.str "audio/mpeg") })
    else .ok (some base0)

/-- Model of `parseDrupalMediaTag` (media.ts lines 235–259) on the span of one tag:
find the first `data-entity-uuid=`, skip whitespace, demand a quote character,
find its closing twin, and return the non-empty value between them. -/
def parseDrupalMediaTag (tag : List Char) : Option (List Char) :=
  match subIndex (("data-entity-uuid=").data) tag with
  | none => none
  | some start =>
    let rest := (tag.drop (start + 17)).dropWhile jsWhitespace
    match rest with
    | [] => none
    | quote :: body =>
      if quote = Char.ofNat 34 ∨ quote = Char.ofNat 39 then
        match subIndex [quote] body with
        | none => none
        | some stop =>
          let uuid := body.take stop
          if uuid.isEmpty then none else some uuid
      else none

/-- The scanning loop of `extractEmbeddedMediaUuids` (media.ts lines
261–287): find the next `<drupal-media`, find the next `>` at or after it
(no `>` anywhere after it breaks the whole scan), hand the enclosed span to
the tag parser, and resume after that `>`. The fuel is an upper bound on the
number of iterations (each consumes at least one character). -/
def tagScan : Nat → List Char → List (List Char)
  | 0, _ => []
  | fuel + 1, s =>
    match subIndex (("<drupal-media").data) s with
    | none => []
    | some k =>
      let rest := s.drop k
      match subIndex ['>'] rest with
      | none => []
      | some e =>
        let tag := rest.take (e + 1)
        let tail := rest.drop (e + 1)
        match parseDrupalMediaTag tag with
        | some u => u :: tagScan fuel tail
        | none => tagScan fuel tail

/-- Model of `extractEmbeddedMediaUuids` (media.ts lines 261–287). -/
def extractEmbeddedMediaUuids (html : String) : List String :=
  (tagScan (html.data.length + 1) html.data).map String.mk

/-! ## Specification-side predicates (phrased from the claims, to be compared
with the code embedding above) -/

/-- Spec-side: is this JS value the string `k`? (Used for the `kind` tag.) -/
def kindEq (v : JsValue) (k : String) : Bool :=
  match v with
  | .str s => s = k
  | _ => false

/-- Spec-side: a valid path per the code's test — a string, non-blank after
trimming, starting with `/`. -/
def pathOkClaim (v : JsValue) : Bool :=
  match v with
  | .str p => jsTrim p ≠ "" && strStarts p ("/")
  | _ => false

/-- Spec-side: a URL field that counts as populated — a string, non-blank
after trimming. -/
def urlOkClaim (v : JsValue) : Bool :=
  match v with
  | .str s => jsTrim s ≠ ""
  | _ => false

/-- Spec-side: a URL field that counts as populated per the claim's original
wording — a non-empty string. -/
def urlNonEmptyClaim (v : JsValue) : Bool :=
  match v with
  | .str s => s ≠ ""
  | _ => false

/-- Spec-side: the field is exactly JS `null`. -/
def isJsNull : JsValue → Bool
  | .null => true
  | _ => false

/-- Spec-side: the field is absent (`undefined`) or `null` — the claim's
original reading of "the other being absent or null". -/
def absentOrNull : JsValue → Bool
  | .undefined => true
  | .null => true
  | _ => false

/-- C1 as stated: the item is accepted iff the path is a non-empty string
starting with `/`, and exactly one of `jsonapi_url`/`data_url` is a non-empty
string consistent with `kind`, the other being absent or null. -/
def routeAcceptOriginal (v : JsValue) : Bool :=
  (match jsField v ("path") with
    | .str p => p ≠ "" && strStarts p ("/")
    | _ => false) &&
  ((kindEq (jsField v ("kind")) ("entity") && urlNonEmptyClaim (jsField v ("jsonapi_url")) &&
      absentOrNull (jsField v ("data_url"))) ||
   (kindEq (jsField v ("kind")) ("view") && urlNonEmptyClaim (jsField v ("data_url")) &&
      absentOrNull (jsField v ("jsonapi_url"))))

/-- C1 amended: acceptance requires the path to be a string that is non-blank
after trimming and starts with `/`, the kind-consistent URL field to be a
string that is non-blank after trimming, and the other URL field to be
exactly `null` (an absent field is dropped too). -/
def routeAcceptAmended (v : JsValue) : Bool :=
  pathOkClaim (jsField v ("path")) &&
  ((kindEq (jsField v ("kind")) ("entity") && urlOkClaim (jsField v ("jsonapi_url")) &&
      isJsNull (jsField v ("data_url"))) ||
   (kindEq (jsField v ("kind")) ("view") && urlOkClaim (jsField v ("data_url")) &&
      isJsNull (jsField v ("jsonapi_url"))))

/-- Spec-side: the attribute value feeding `resolveFileUrl` is benign — a
string or falsy. Any other (truthy non-string) value makes the JS throw. -/
def stringOrFalsy (v : JsValue) : Bool :=
  match v with
  | .str _ => true
  | v => !jsTruthy v

/-- A file resource whose url-ish attributes cannot make `getFileUrl` throw. -/
def fileOkB (f : JsonApiResource) : Bool :=
  match f.attributes with
  | none => true
  | some fields => stringOrFalsy (fileUrlRaw fields)

/-- The list behind an optional `included` array. -/
def includedList (included : Option (List JsonApiResource)) : List JsonApiResource :=
  included.getD []

/-- The bundle name `extractMedia` dispatches on. -/
def bundleOf (media : JsonApiResource) : String :=
  replaceFirst media.type ("media--") ("")

/-- The bundle names with a dedicated classification branch. -/
def supportedBundle (s : String) : Bool :=
  s = "image" || s = "video" || s = "remote_video" || s = "file" || s = "document" || s = "audio"

/-- A media resource whose oEmbed attribute cannot make the remote-video
branch throw. -/
def oembedOk (media : JsonApiResource) : Bool :=
  stringOrFalsy (attrGet media.attributes ("field_media_oembed_video"))

/-- Spec-side (C8): does the URL contain a full `/styles/<name>/` segment
(at any position)? -/
def hasStylesSeg (l : List Char) : Bool :=
  (List.range (l.length + 1)).any (fun i => (styleMatchAt (l.drop i)).isSome)

/-- Spec-side (C8): splice `styles/<style>/public/` immediately after the
first `/files/` marker, preserving the remainder; unchanged when there is no
marker. -/
def spliceAfterFiles (s style : String) : String :=
  match subIndex filesPat s.data with
  | some i =>
    String.mk (s.data.take (i + 7) ++ ("styles/").data ++ style.data ++
      ("/public/").data ++ s.data.drop (i + 7))
  | none => s

/-- Spec-side (C9): the scanned spans themselves — each span runs from a
`<drupal-media` occurrence to the first `>` at or after it, the scan resumes
past the span, and a tag start with no later `>` ends the scan. -/
def tagSpans : Nat → List Char → List (List Char)
  | 0, _ => []
  | fuel + 1, s =>
    match subIndex (("<drupal-media").data) s with
    | none => []
    | some k =>
      let rest := s.drop k
      match subIndex ['>'] rest with
      | none => []
      | some e => rest.take (e + 1) :: tagSpans fuel (rest.drop (e + 1))

/-- Spec-side (C9): the spans of a document. -/
def mediaTagSpans (html : String) : List (List Char) :=
  tagSpans (html.data.length + 1) html.data

/-! ## Concrete fixtures for witnesses and counterexamples -/

/-- A transport stub resolving every request with an empty well-formed feed. -/
def stubServer : Url → FetchResponse :=
  fun _ => ⟨true, 200, "OK", .obj [("data", .arr [])]⟩

/-- A transport stub resolving with a non-object JSON body. -/
def stubServerNonObject : Url → FetchResponse :=
  fun _ => ⟨true, 200, "OK", .str "nope"⟩

/-- A transport stub resolving with an object body whose `data` is a string. -/
def stubServerBadData : Url → FetchResponse :=
  fun _ => ⟨true, 200, "OK", .obj [("data", .str "x")]⟩

/-- The configured base `https://cms.example.com`. -/
def baseHttps : Url := ⟨"https", "cms.example.com", none, "/", []⟩

/-- A base whose scheme is `ftp` (special scheme, tuple origin). -/
def baseFtp : Url := ⟨"ftp", "cms.example.com", none, "/", []⟩

/-- The parse of `ftp://cms.example.com/x`. -/
def ftpInput : Url := ⟨"ftp", "cms.example.com", none, "/x", []⟩

/-- The parse of `https://evil.example.com/x`. -/
def evilInput : Url := ⟨"https", "evil.example.com", none, "/x", []⟩

/-- Normalized entries of the three-page fixture feed. -/
def routesE1 : RoutesFeedItem := .entity ("/one") ("/jsonapi/node/page/1")

/-- Second fixture entry. -/
def routesE2 : RoutesFeedItem := .view ("/two") ("/jsonapi/views/listing/default")

/-- Third fixture entry. -/
def routesE3 : RoutesFeedItem := .entity ("/three") ("/jsonapi/node/page/3")

/-- Fourth fixture entry. -/
def routesE4 : RoutesFeedItem := .entity ("/four") ("/jsonapi/node/page/4")

/-- Fifth fixture entry. -/
def routesE5 : RoutesFeedItem := .view ("/five") ("/jsonapi/views/listing/page2")

/-- A three-page feed with page sizes 2, 2 and 1 and `next = null` on the
last page. -/
def threePageFeed : Option String → Except RoutesError RoutesFeedResponse
  | none => .ok ⟨[routesE1, routesE2], none, some "/jsonapi/routes?page=2", none⟩
  | some s =>
    if s = "/jsonapi/routes?page=2" then
      .ok ⟨[routesE3, routesE4], none, some "/jsonapi/routes?page=3", none⟩
    else if s = "/jsonapi/routes?page=3" then
      .ok ⟨[routesE5], none, none, none⟩
    else .error (.requestFailed 404 ("Not Found"))

/-- A page that always advertises a further page. -/
def loopPage : RoutesFeedResponse := ⟨[], none, some "/jsonapi/routes?page=next", none⟩

/-- A feed whose `next` chain never terminates. -/
def loopFeed : Option String → Except RoutesError RoutesFeedResponse :=
  fun _ => .ok loopPage

/-- C1 counterexample input: a well-formed entity entry whose `data_url` key
is absent (not `null`). -/
def c1AbsentInput : JsValue :=
  .obj [("path", .str "/about"), ("kind", .str "entity"), ("jsonapi_url", .str "/jsonapi/node/page/1")]

/-- C1 counterexample input: a whitespace-only (non-empty) `jsonapi_url`. -/
def c1BlankInput : JsValue :=
  .obj [("path", .str "/about"), ("kind", .str "entity"), ("jsonapi_url", .str " "), ("data_url", .null)]

/-- A file resource whose `uri.url` attribute is the number 5 — truthy but
not a string. -/
def badUrlFile : JsonApiResource :=
  ⟨"file--file", "f1", some [("uri", .obj [("url", .num 5)])], none⟩

/-- A `media--image` resource referencing `badUrlFile`. -/
def badUrlMedia : JsonApiResource :=
  ⟨"media--image", "m1", none,
    some [("field_media_image", ⟨RelData.single ⟨"file--file", "f1", none⟩⟩)]⟩

/-- A media resource of an unsupported bundle. -/
def galleryMedia : JsonApiResource :=
  ⟨"media--gallery", "m9", some [("name", .str "Holiday")], none⟩

/-- A `media--image` resource with no resolvable file relationship (the
referenced file is not in `included`). -/
def unresolvedImageMedia : JsonApiResource :=
  ⟨"media--image", "m2", some [("name", .str "Lonely")],
    some [("field_media_image", ⟨RelData.single ⟨"file--file", "missing", none⟩⟩)]⟩

/-- A benign remote-video media resource. -/
def remoteVideoMedia : JsonApiResource :=
  ⟨"media--remote_video", "m3",
    some [("name", .str "Clip"), ("field_media_oembed_video", .str "https://youtu.be/dQw4w9WgXcQ")],
    none⟩

/-- A well-formed image file resource for the C6 witness. -/
def c6File : JsonApiResource :=
  ⟨"file--image", "f6",
    some [("filename", .str "a.png"),
          ("uri", .obj [("url", .str "/sites/default/files/a.png")]),
          ("width", .num 800), ("height", .num 600)],
    none⟩

/-- A `media--image` resource whose relationship carries `alt`/`title` meta. -/
def c6Media : JsonApiResource :=
  ⟨"media--image", "m6", some [("name", .str "My media")],
    some [("field_media_image",
      ⟨RelData.single ⟨"file--image", "f6",
        some [("alt", .str "Alt text"), ("title", .str "Title text")]⟩⟩)]⟩

/-- The image data `extractImageFromFile` derives from `c6File`. -/
def c6ImageData : DrupalImageData :=
  ⟨"https://cms.example.com/sites/default/files/a.png", .str "a.png", .num 800, .num 600, .undefined⟩

/-- A file resource declaring numeric width/height together with a truthy
`image_style_uri` attribute. -/
def styledFile : JsonApiResource :=
  ⟨"file--file", "f10",
    some [("uri", .obj [("url", .str "/sites/default/files/b.png")]),
          ("image_style_uri", .obj [("large", .str "https://cms.example.com/l/b.png")]),
          ("width", .num 800), ("height", .num 600)],
    none⟩

/-- A fully valid entity feed item (explicit `null` `data_url`). -/
def c1GoodEntity : JsValue :=
  .obj [("path", .str "/about"), ("kind", .str "entity"),
        ("jsonapi_url", .str "/jsonapi/node/page/1"), ("data_url", .null)]

/-- A fully valid view feed item (explicit `null` `jsonapi_url`). -/
def c1GoodView : JsValue :=
  .obj [("path", .str "/news"), ("kind", .str "view"),
        ("data_url", .str "/jsonapi/views/news/page_1"), ("jsonapi_url", .null)]

/-! ## Theorems -/

/-- C7 (confirmed): `resolveFileUrl` by case — `none`/empty input yields
`none`; absolute http(s) URLs and `data:` URIs pass unchanged;
protocol-relative input is prefixed with `https:`; anything else gets a
leading slash ensured and is concatenated onto the configured base. -/
theorem c7_resolve_file_url (base : String) :
    (resolveFileUrl none base = none ∧ resolveFileUrl (some "") base = none) ∧
    (∀ s, (strStarts s ("http://") || strStarts s ("https://")) = true →
      resolveFileUrl (some s) base = some s) ∧
    (∀ s, strStarts s ("data:") = true → strStarts s ("http://") = false →
      strStarts s ("https://") = false → resolveFileUrl (some s) base = some s) ∧
    (∀ s, strStarts s ("//") = true → strStarts s ("http://") = false →
      strStarts s ("https://") = false → strStarts s ("data:") = false →
      resolveFileUrl (some s) base = some ("https:" ++ s)) ∧
    (∀ s, s ≠ "" → strStarts s ("http://") = false → strStarts s ("https://") = false →
      strStarts s ("data:") = false → strStarts s ("//") = false →
      resolveFileUrl (some s) base =
        some (base ++ (if strStarts s ("/") then s else "/" ++ s))) := by
  refine ⟨⟨rfl, rfl⟩, ?_, ?_, ?_, ?_⟩
  · intro s h
    by_cases hs : s = ""
    · subst hs; exact absurd h (by decide)
    · simp [resolveFileUrl, hs, h]
  · intro s h h1 h2
    by_cases hs : s = ""
    · subst hs; exact absurd h (by decide)
    · simp [resolveFileUrl, hs, h, h1, h2]
  · intro s h h1 h2 h3
    by_cases hs : s = ""
    · subst hs; exact absurd h (by decide)
    · simp [resolveFileUrl, hs, h, h1, h2, h3]
  · intro s hs h1 h2 h3 h4
    simp [resolveFileUrl, hs, h1, h2, h3, h4]

/-- C7 witness: the three concrete examples of the specification, obtained by
applying `c7_resolve_file_url`. -/
theorem c7_resolve_file_url_witness :
    resolveFileUrl (some "/sites/default/files/a.png") ("https://cms.example.com") =
      some ("https://cms.example.com/sites/default/files/a.png") ∧
    resolveFileUrl (some "//cdn.example.com/a.png") ("https://cms.example.com") =
      some ("https://cdn.example.com/a.png") ∧
    resolveFileUrl (some "data:image/png;base64,AA==") ("https://cms.example.com") =
      some ("data:image/png;base64,AA==") := by
  refine ⟨?_, ?_, ?_⟩
  · exact ((c7_resolve_file_url ("https://cms.example.com")).2.2.2.2
      ("/sites/default/files/a.png") (by decide) (by decide) (by decide) (by decide)
      (by decide)).trans (by decide)
  · exact ((c7_resolve_file_url ("https://cms.example.com")).2.2.2.1
      ("//cdn.example.com/a.png") (by decide) (by decide) (by decide) (by decide)).trans
      (by decide)
  · exact (c7_resolve_file_url ("https://cms.example.com")).2.2.1
      ("data:image/png;base64,AA==") (by decide) (by decide) (by decide)

/-- C10 (confirmed): a truthy `image_style_uri` attribute suppresses the
file's width/height in the produced image data; they are carried through
exactly when it is absent or falsy. -/
theorem c10_image_style_uri_suppresses_dimensions (f : JsonApiResource) (base : String)
    (img : DrupalImageData) :
    (jsTruthy (attrGet f.attributes ("image_style_uri")) = true →
      extractImageFromFile (some f) base = .ok (some img) →
      img.width = .undefined ∧ img.height = .undefined) ∧
    (jsTruthy (attrGet f.attributes ("image_style_uri")) = false →
      extractImageFromFile (some f) base = .ok (some img) →
      img.width = attrGet f.attributes ("width") ∧
      img.height = attrGet f.attributes ("height")) := by
  constructor
  · intro ht h
    simp only [extractImageFromFile] at h
    cases hg : getFileUrl (some f) base with
    | error e => rw [hg] at h; exact absurd h (by simp)
    | ok o =>
      cases o with
      | none => rw [hg] at h; exact absurd h (by simp)
      | some url =>
        rw [hg] at h
        simp only [Except.ok.injEq, Option.some.injEq] at h
        subst h
        simp [ht]
  · intro ht h
    simp only [extractImageFromFile] at h
    cases hg : getFileUrl (some f) base with
    | error e => rw [hg] at h; exact absurd h (by simp)
    | ok o =>
      cases o with
      | none => rw [hg] at h; exact absurd h (by simp)
      | some url =>
        rw [hg] at h
        simp only [Except.ok.injEq, Option.some.injEq] at h
        subst h
        simp [ht]

/-- C10 witness: `styledFile` declares width 800 and height 600 but a truthy
`image_style_uri`, so the derived image data has no dimensions. -/
theorem c10_image_style_uri_suppresses_dimensions_witness :
    jsTruthy (attrGet styledFile.attributes ("image_style_uri")) = true ∧
    extractImageFromFile (some styledFile) ("https://cms.example.com") =
      .ok (some ⟨"https://cms.example.com/sites/default/files/b.png", .str "", .undefined, .undefined, .undefined⟩) ∧
    (⟨"https://cms.example.com/sites/default/files/b.png", .str "", .undefined, .undefined,
        (.undefined : JsValue)⟩ : DrupalImageData).width = .undefined ∧
    (⟨"https://cms.example.com/sites/default/files/b.png", .str "", .undefined, .undefined,
        (.undefined : JsValue)⟩ : DrupalImageData).height = .undefined := by
  refine ⟨by decide, rfl, ?_⟩
  exact (c10_image_style_uri_suppresses_dimensions styledFile ("https://cms.example.com")
    ⟨"https://cms.example.com/sites/default/files/b.png", .str "", .undefined, .undefined, .undefined⟩).1
    (by decide) rfl

/-- A string-or-falsy value makes the JS-level `resolveFileUrl` total. -/
theorem resolveFileUrlJs_isOk (v : JsValue) (base : String) (h : stringOrFalsy v = true) :
    ∃ o, resolveFileUrlJs v base = .ok o := by
  cases v with
  | undefined => exact ⟨none, rfl⟩
  | null => exact ⟨none, rfl⟩
  | bool b =>
    cases b with
    | false => exact ⟨none, rfl⟩
    | true => exact absurd h (by decide)
  | num n =>
    simp [stringOrFalsy, jsTruthy] at h
    subst h
    exact ⟨none, rfl⟩
  | str s =>
    refine ⟨resolveFileUrl (some s) base, ?_⟩
    by_cases hs : s = ""
    · subst hs; rfl
    · simp [resolveFileUrlJs, jsTruthy, hs]
  | arr l => exfalso; simp [stringOrFalsy, jsTruthy] at h
  | obj fields => exfalso; simp [stringOrFalsy, jsTruthy] at h

/-- A benign file resource makes `getFileUrl` total. -/
theorem getFileUrl_isOk (f : JsonApiResource) (base : String) (h : fileOkB f = true) :
    ∃ o, getFileUrl (some f) base = .ok o := by
  unfold fileOkB at h
  simp only [getFileUrl]
  cases hf : f.attributes with
  | none => exact ⟨none, rfl⟩
  | some fields =>
    rw [hf] at h
    exact resolveFileUrlJs_isOk _ base h

/-- A benign file resource makes `extractImageFromFile` total. -/
theorem extractImageFromFile_isOk (f : JsonApiResource) (base : String) (h : fileOkB f = true) :
    ∃ o, extractImageFromFile (some f) base = .ok o := by
  obtain ⟨o, ho⟩ := getFileUrl_isOk f base h
  simp only [extractImageFromFile]
  rw [ho]
  cases o with
  | none => exact ⟨none, rfl⟩
  | some url => exact ⟨some _, rfl⟩

/-- A resource found through a relationship is a member of `included`. -/
theorem findIncludedByRelationship_mem (included : Option (List JsonApiResource))
    (rel : Option JsonApiRelationship) (f : JsonApiResource)
    (h : findIncludedByRelationship included rel = some f) : f ∈ includedList included := by
  cases rel with
  | none => exact absurd h (by simp [findIncludedByRelationship])
  | some r =>
    simp only [findIncludedByRelationship] at h
    cases hd : r.data with
    | null => rw [hd] at h; exact absurd h (by simp)
    | many refs => rw [hd] at h; exact absurd h (by simp)
    | single ref =>
      rw [hd] at h
      unfold findIncluded at h
      cases included with
      | none => exact absurd h (by simp)
      | some l =>
        simp only [includedList, Option.getD_some]
        exact List.mem_of_find?_eq_some h

/-- C5 (corrected): for a present media resource, `extractMedia` always
returns a descriptor (never `none`); an unsupported bundle yields kind
`unknown` with no url and no extra fields; a `media--image` whose
`field_media_image` relationship does not resolve yields kind `image` with a
`null` url and no image field. The no-throw part holds under the proviso
(forced by the counterexample) that the url-ish attribute values of the
included files and the media's oEmbed attribute are strings or falsy —
otherwise the JS throws a `TypeError`. -/
theorem c5_media_classification :
    (∀ media included base, (∀ f ∈ includedList included, fileOkB f = true) →
      oembedOk media = true →
      ∃ d, extractMedia (some media) included base = .ok (some d)) ∧
    (∀ media included base, supportedBundle (bundleOf media) = false →
      ∃ d, extractMedia (some media) included base = .ok (some d) ∧
        d.type = "unknown" ∧ d.url = .null ∧ d.image = none ∧
        d.mimeType = .undefined ∧ d.embedUrl = .undefined) ∧
    (∀ media included base, bundleOf media = "image" →
      findIncludedByRelationship included (relGet media.relationships ("field_media_image")) = none →
      ∃ d, extractMedia (some media) included base = .ok (some d) ∧
        d.type = "image" ∧ d.url = .null ∧ d.image = none) := by
  refine ⟨?_, ?_, ?_⟩
  · intro media included base hinc hoe
    simp only [extractMedia]
    by_cases h1 : replaceFirst media.type ("media--") ("") = "image"
    · rw [if_pos h1]
      cases hf : findIncludedByRelationship included
          (relGet media.relationships ("field_media_image")) with
      | none => exact ⟨_, rfl⟩
      | some f =>
        obtain ⟨o, ho⟩ :=
          extractImageFromFile_isOk f base (hinc f (findIncludedByRelationship_mem _ _ _ hf))
        simp only [ho]
        cases o with
        | none => exact ⟨_, rfl⟩
        | some imageData => exact ⟨_, rfl⟩
    · rw [if_neg h1]
      by_cases h2 : replaceFirst media.type ("media--") ("") = "video"
      · rw [if_pos h2]
        cases hf : findIncludedByRelationship included
            (relGet media.relationships ("field_media_video_file")) with
        | none => exact ⟨_, rfl⟩
        | some f =>
          obtain ⟨o, ho⟩ :=
            getFileUrl_isOk f base (hinc f (findIncludedByRelationship_mem _ _ _ hf))
          simp only [ho]
          exact ⟨_, rfl⟩
      · rw [if_neg h2]
        by_cases h3 : replaceFirst media.type ("media--") ("") = "remote_video"
        · rw [if_pos h3]
          unfold oembedOk at hoe
          by_cases ht : jsTruthy (attrGet media.attributes ("field_media_oembed_video")) = true
          · rw [if_pos ht]
            cases hv : attrGet media.attributes ("field_media_oembed_video") with
            | str s => exact ⟨_, rfl⟩
            | undefined => rw [hv] at ht; exact absurd ht (by decide)
            | null => rw [hv] at ht; exact absurd ht (by decide)
            | bool b =>
              rw [hv] at ht hoe
              cases b with
              | false => exact absurd ht (by decide)
              | true => exact absurd hoe (by decide)
            | num n =>
              rw [hv] at ht hoe
              simp [jsTruthy] at ht
              simp [stringOrFalsy, jsTruthy] at hoe
              exact absurd hoe ht
            | arr l =>
              rw [hv] at hoe
              exact absurd hoe (by simp [stringOrFalsy, jsTruthy])
            | obj fields =>
              rw [hv] at hoe
              exact absurd hoe (by simp [stringOrFalsy, jsTruthy])
          · rw [if_neg ht]
            exact ⟨_, rfl⟩
        · rw [if_neg h3]
          by_cases h4 : replaceFirst media.type ("media--") ("") = "file" ∨
              replaceFirst media.type ("media--") ("") = "document"
          · rw [if_pos h4]
            cases hf : findIncludedByRelationship included
                (match relGet media.relationships ("field_media_file") with
                  | some r => some r
                  | none => relGet media.relationships ("field_media_document")) with
            | none => exact ⟨_, rfl⟩
            | some f =>
              obtain ⟨o, ho⟩ :=
                getFileUrl_isOk f base (hinc f (findIncludedByRelationship_mem _ _ _ hf))
              simp only [ho]
              exact ⟨_, rfl⟩
          · rw [if_neg h4]
            by_cases h5 : replaceFirst media.type ("media--") ("") = "audio"
            · rw [if_pos h5]
              cases hf : findIncludedByRelationship included
                  (relGet media.relationships ("field_media_audio_file")) with
              | none => exact ⟨_, rfl⟩
              | some f =>
                obtain ⟨o, ho⟩ :=
                  getFileUrl_isOk f base (hinc f (findIncludedByRelationship_mem _ _ _ hf))
                simp only [ho]
                exact ⟨_, rfl⟩
            · rw [if_neg h5]
              exact ⟨_, rfl⟩
  · intro media included base hsup
    simp only [supportedBundle, bundleOf, Bool.or_eq_false_iff,
      decide_eq_false_iff_not] at hsup
    obtain ⟨⟨⟨⟨⟨h1, h2⟩, h3⟩, h4⟩, h5⟩, h6⟩ := hsup
    simp only [extractMedia]
    rw [if_neg h1, if_neg h2, if_neg h3, if_neg (not_or.mpr ⟨h4, h5⟩), if_neg h6]
    exact ⟨_, rfl, rfl, rfl, rfl, rfl, rfl⟩
  · intro media included base h1 hf
    unfold bundleOf at h1
    simp only [extractMedia]
    rw [if_pos h1, hf]
    exact ⟨_, rfl, rfl, rfl, rfl⟩

/-- C5 witness: concrete instances of all three parts — an unsupported
`media--gallery` bundle, a `media--image` with an unresolvable file
relationship, and a benign remote-video resource, each classified without an
error. -/
theorem c5_media_classification_witness :
    (∃ d, extractMedia (some galleryMedia) none ("https://cms.example.com") = .ok (some d) ∧
      d.type = "unknown" ∧ d.url = .null ∧ d.image = none ∧
      d.mimeType = .undefined ∧ d.embedUrl = .undefined) ∧
    (∃ d, extractMedia (some unresolvedImageMedia) (some []) ("https://cms.example.com") =
        .ok (some d) ∧ d.type = "image" ∧ d.url = .null ∧ d.image = none) ∧
    (∃ d, extractMedia (some remoteVideoMedia) none ("https://cms.example.com") = .ok (some d)) := by
  refine ⟨?_, ?_, ?_⟩
  · exact c5_media_classification.2.1 galleryMedia none ("https://cms.example.com") (by decide)
  · exact c5_media_classification.2.2 unresolvedImageMedia (some []) ("https://cms.example.com")
      (by decide) (by with_unfolding_all rfl)
  · exact c5_media_classification.1 remoteVideoMedia none ("https://cms.example.com")
      (by intro f hf; simp [includedList] at hf) (by decide)

/-- C5 counterexample: a present `media--image` resource whose included file
carries `uri.url = 5` (truthy, not a string) makes `extractMedia` throw a
`TypeError` — refuting the claim's "never throws". -/
theorem c5_media_classification_cx :
    extractMedia (some badUrlMedia) (some [badUrlFile]) ("https://cms.example.com") =
      .error .typeError := by with_unfolding_all rfl

/-- A relationship-level meta string is never empty (the source demands a
non-blank trim). -/
theorem getRelationshipMetaString_ne_empty (rel : Option JsonApiRelationship) (key : String)
    (a : String) (h : getRelationshipMetaString rel key = some a) : a ≠ "" := by
  cases rel with
  | none => exact absurd h (by simp [getRelationshipMetaString])
  | some r =>
    simp only [getRelationshipMetaString] at h
    cases hd : r.data with
    | null => rw [hd] at h; exact absurd h (by simp)
    | many refs => rw [hd] at h; exact absurd h (by simp)
    | single ref =>
      simp only [hd] at h
      cases hm : ref.meta with
      | none => simp only [hm] at h; exact absurd h (by simp)
      | some m =>
        simp only [hm] at h
        cases hv : jsGet m key with
        | str s =>
          simp only [hv] at h
          by_cases hs : jsTrim s = ""
          · rw [if_pos hs] at h; exact absurd h (by simp)
          · rw [if_neg hs] at h
            simp only [Option.some.injEq] at h
            subst h
            intro he
            apply hs
            rw [he]
            decide
        | undefined => simp only [hv] at h; exact absurd h (by simp)
        | null => simp only [hv] at h; exact absurd h (by simp)
        | bool b => simp only [hv] at h; exact absurd h (by simp)
        | num n => simp only [hv] at h; exact absurd h (by simp)
        | arr l => simp only [hv] at h; exact absurd h (by simp)
        | obj fields => simp only [hv] at h; exact absurd h (by simp)

/-- C6 (confirmed): for a `media--image` whose relationship resolves to a
file with a derivable URL, the produced image's `alt` prefers the
relationship-level `alt` meta, then the file-derived alt (the filename), then
the media's own name; `title` prefers the relationship-level `title` meta and
otherwise keeps the file-derived title; the file's width/height are carried
through unchanged. -/
theorem c6_image_alt_title_fallback (media : JsonApiResource)
    (included : Option (List JsonApiResource)) (base : String) (file : JsonApiResource)
    (imgData : DrupalImageData)
    (htype : media.type = "media--image")
    (hfind : findIncludedByRelationship included
      (relGet media.relationships ("field_media_image")) = some file)
    (himg : extractImageFromFile (some file) base = .ok (some imgData)) :
    ∃ d img, extractMedia (some media) included base = .ok (some d) ∧
      d.image = some img ∧ d.url = .str imgData.src ∧
      img.src = imgData.src ∧ img.width = imgData.width ∧ img.height = imgData.height ∧
      (∀ a, getRelationshipMetaString (relGet media.relationships ("field_media_image"))
          ("alt") = some a → img.alt = .str a) ∧
      (getRelationshipMetaString (relGet media.relationships ("field_media_image"))
          ("alt") = none → jsTruthy imgData.alt = true → img.alt = imgData.alt) ∧
      (getRelationshipMetaString (relGet media.relationships ("field_media_image"))
          ("alt") = none → jsTruthy imgData.alt = false →
        img.alt = jsOr (attrGet media.attributes ("name")) (.str "")) ∧
      (∀ t, getRelationshipMetaString (relGet media.relationships ("field_media_image"))
          ("title") = some t → img.title = .str t) ∧
      (getRelationshipMetaString (relGet media.relationships ("field_media_image"))
          ("title") = none → img.title = imgData.title) := by
  have hb : replaceFirst ("media--image") ("media--") ("") = "image" := by decide
  simp only [extractMedia, htype]
  rw [if_pos hb]
  simp only [hfind, himg]
  refine ⟨_, _, rfl, rfl, rfl, rfl, rfl, rfl, ?_, ?_, ?_, ?_, ?_⟩
  · intro a ha
    have hne := getRelationshipMetaString_ne_empty _ _ _ ha
    simp [ha, optToJs, jsOr, jsTruthy, hne]
  · intro ha ht
    have hu : jsTruthy .undefined = false := rfl
    simp [ha, optToJs, jsOr, hu, ht]
  · intro ha ht
    have hu : jsTruthy .undefined = false := rfl
    simp [ha, optToJs, jsOr, hu, ht]
  · intro t ht
    have hne := getRelationshipMetaString_ne_empty _ _ _ ht
    simp [ht, optToJs, jsOr, jsTruthy, hne]
  · intro ht
    simp [ht, optToJs, jsOr, jsTruthy]

/-- C6 witness: the `c6Media`/`c6File` fixture — relationship meta provides
`alt`/`title`, the file provides the URL and dimensions. -/
theorem c6_image_alt_title_fallback_witness :
    ∃ d img, extractMedia (some c6Media) (some [c6File]) ("https://cms.example.com") =
        .ok (some d) ∧
      d.image = some img ∧ d.url = .str ("https://cms.example.com/sites/default/files/a.png") ∧
      img.alt = .str ("Alt text") ∧ img.title = .str ("Title text") ∧
      img.width = .num 800 ∧ img.height = .num 600 := by
  obtain ⟨d, img, h1, h2, h3, h4, h5, h6, halt, _, _, htitle, _⟩ :=
    c6_image_alt_title_fallback c6Media (some [c6File]) ("https://cms.example.com") c6File
      c6ImageData rfl (by with_unfolding_all rfl) (by with_unfolding_all rfl)
  refine ⟨d, img, h1, h2, h3.trans (by with_unfolding_all rfl), ?_, ?_, ?_, ?_⟩
  · exact halt ("Alt text") (by with_unfolding_all rfl)
  · exact htitle ("Title text") (by with_unfolding_all rfl)
  · exact h5.trans (by with_unfolding_all rfl)
  · exact h6.trans (by with_unfolding_all rfl)

/-- Field-level characterisation: normalization of one raw item succeeds
exactly on the amended shape (path non-blank starting with `/`, the
kind-consistent URL non-blank, the other field exactly `null`). -/
theorem normalizeRoutesFields_isSome (p k j d : JsValue) :
    (normalizeRoutesFields p k j d).isSome =
      (pathOkClaim p &&
        ((kindEq k ("entity") && urlOkClaim j && isJsNull d) ||
         (kindEq k ("view") && urlOkClaim d && isJsNull j))) := by
  cases p with
  | str p =>
    simp only [normalizeRoutesFields, pathOkClaim]
    by_cases h1 : jsTrim p = ""
    · simp [h1]
    · by_cases h2 : strStarts p ("/") = true
      · rw [if_neg h1, if_neg (by simp [h2] : ¬((!strStarts p ("/")) = true))]
        cases k with
        | str k =>
          simp only []
          by_cases hk : k = "entity"
          · subst hk
            rw [if_pos rfl]
            cases j with
            | str j =>
              simp only []
              by_cases hj : jsTrim j = ""
              · simp [urlOkClaim, kindEq, h1, h2, hj]
              · rw [if_neg hj]
                cases d <;> simp [urlOkClaim, kindEq, isJsNull, h1, h2, hj]
            | undefined => simp [urlOkClaim, kindEq, h1, h2]
            | null => simp [urlOkClaim, kindEq, h1, h2]
            | bool b => simp [urlOkClaim, kindEq, h1, h2]
            | num n => simp [urlOkClaim, kindEq, h1, h2]
            | arr l => simp [urlOkClaim, kindEq, h1, h2]
            | obj fields => simp [urlOkClaim, kindEq, h1, h2]
          · by_cases hv : k = "view"
            · subst hv
              simp only []
              simp only [if_true]
              cases d with
              | str d =>
                simp only []
                by_cases hd : jsTrim d = ""
                · simp [urlOkClaim, kindEq, h1, h2, hd]
                · rw [if_neg hd]
                  cases j <;> simp [urlOkClaim, kindEq, isJsNull, h1, h2, hd]
              | undefined => simp [urlOkClaim, kindEq, h1, h2]
              | null => simp [urlOkClaim, kindEq, h1, h2]
              | bool b => simp [urlOkClaim, kindEq, h1, h2]
              | num n => simp [urlOkClaim, kindEq, h1, h2]
              | arr l => simp [urlOkClaim, kindEq, h1, h2]
              | obj fields => simp [urlOkClaim, kindEq, h1, h2]
            · rw [if_neg hk, if_neg hv]
              simp [kindEq, h1, h2, hk, hv]
        | undefined => simp [kindEq, h1, h2]
        | null => simp [kindEq, h1, h2]
        | bool b => simp [kindEq, h1, h2]
        | num n => simp [kindEq, h1, h2]
        | arr l => simp [kindEq, h1, h2]
        | obj fields => simp [kindEq, h1, h2]
      · simp only [Bool.not_eq_true] at h2
        simp [h1, h2]
  | undefined => rfl
  | null => rfl
  | bool b => rfl
  | num n => rfl
  | arr l => rfl
  | obj fields => rfl

/-- An accepted entity item reproduces its input fields verbatim. -/
theorem normalizeRoutesFields_entity (p k j d : JsValue) (pe je : String)
    (h : normalizeRoutesFields p k j d = some (.entity pe je)) :
    p = .str pe ∧ j = .str je ∧ d = .null := by
  unfold normalizeRoutesFields at h
  repeat' split at h
  all_goals simp_all

/-- An accepted view item reproduces its input fields verbatim. -/
theorem normalizeRoutesFields_view (p k j d : JsValue) (pe de : String)
    (h : normalizeRoutesFields p k j d = some (.view pe de)) :
    p = .str pe ∧ d = .str de ∧ j = .null := by
  unfold normalizeRoutesFields at h
  repeat' split at h
  all_goals simp_all

/-- C1 (corrected): per-item normalization accepts exactly the amended shape —
path a non-blank string starting with `/`, kind `entity`/`view`, the
kind-consistent URL field a non-blank string, and the other URL field exactly
`null` (strict `!== null`: an absent field is dropped, and a whitespace-only
URL is dropped); accepted items reproduce their input fields verbatim, never
coerced. -/
theorem c1_route_normalization :
    (∀ v, (normalizeRoutesItem v).isSome = routeAcceptAmended v) ∧
    (∀ v pe je, normalizeRoutesItem v = some (.entity pe je) →
      jsField v ("path") = .str pe ∧ jsField v ("jsonapi_url") = .str je ∧
      jsField v ("data_url") = .null) ∧
    (∀ v pe de, normalizeRoutesItem v = some (.view pe de) →
      jsField v ("path") = .str pe ∧ jsField v ("data_url") = .str de ∧
      jsField v ("jsonapi_url") = .null) := by
  refine ⟨?_, ?_, ?_⟩
  · intro v
    cases v with
    | obj fields => exact normalizeRoutesFields_isSome _ _ _ _
    | arr l =>
      exact normalizeRoutesFields_isSome (jsField (.arr l) ("path")) (jsField (.arr l) ("kind"))
        (jsField (.arr l) ("jsonapi_url")) (jsField (.arr l) ("data_url"))
    | undefined => rfl
    | null => rfl
    | bool b =>
      simp [normalizeRoutesItem, routeAcceptAmended, jsTypeofObject, jsField, pathOkClaim,
        normalizeRoutesFields]
    | num n =>
      simp [normalizeRoutesItem, routeAcceptAmended, jsTypeofObject, jsField, pathOkClaim,
        normalizeRoutesFields]
    | str s =>
      simp [normalizeRoutesItem, routeAcceptAmended, jsTypeofObject, jsField, pathOkClaim,
        normalizeRoutesFields]
  · intro v pe je h
    cases v with
    | obj fields => exact normalizeRoutesFields_entity _ _ _ _ _ _ h
    | arr l =>
      exact normalizeRoutesFields_entity (jsField (.arr l) ("path")) (jsField (.arr l) ("kind"))
        (jsField (.arr l) ("jsonapi_url")) (jsField (.arr l) ("data_url")) pe je h
    | undefined => exact absurd h (by simp [normalizeRoutesItem, jsTruthy, jsTypeofObject])
    | null => exact absurd h (by simp [normalizeRoutesItem, jsTruthy, jsTypeofObject])
    | bool b => exact absurd h (by simp [normalizeRoutesItem, jsTruthy, jsTypeofObject])
    | num n => exact absurd h (by simp [normalizeRoutesItem, jsTruthy, jsTypeofObject])
    | str s => exact absurd h (by simp [normalizeRoutesItem, jsTruthy, jsTypeofObject])
  · intro v pe de h
    cases v with
    | obj fields => exact normalizeRoutesFields_view _ _ _ _ _ _ h
    | arr l =>
      exact normalizeRoutesFields_view (jsField (.arr l) ("path")) (jsField (.arr l) ("kind"))
        (jsField (.arr l) ("jsonapi_url")) (jsField (.arr l) ("data_url")) pe de h
    | undefined => exact absurd h (by simp [normalizeRoutesItem, jsTruthy, jsTypeofObject])
    | null => exact absurd h (by simp [normalizeRoutesItem, jsTruthy, jsTypeofObject])
    | bool b => exact absurd h (by simp [normalizeRoutesItem, jsTruthy, jsTypeofObject])
    | num n => exact absurd h (by simp [normalizeRoutesItem, jsTruthy, jsTypeofObject])
    | str s => exact absurd h (by simp [normalizeRoutesItem, jsTruthy, jsTypeofObject])

/-- C1 counterexample: (i) a well-formed entity item whose `data_url` key is
ABSENT is accepted by the claim's predicate ("absent or null") but dropped by
the code's strict `data_url !== null`; (ii) a whitespace-only `jsonapi_url`
is a non-empty string (accepted by the claim) but dropped by the code's trim
check. -/
theorem c1_route_normalization_cx :
    routeAcceptOriginal c1AbsentInput = true ∧ normalizeRoutesItem c1AbsentInput = none ∧
    routeAcceptOriginal c1BlankInput = true ∧ normalizeRoutesItem c1BlankInput = none := by
  exact ⟨by decide, by decide, by decide, by decide⟩

/-- C1 witness: accepted entity and view fixtures reproduce their fields. -/
theorem c1_route_normalization_witness :
    (jsField c1GoodEntity ("path") = .str ("/about") ∧
      jsField c1GoodEntity ("jsonapi_url") = .str ("/jsonapi/node/page/1") ∧
      jsField c1GoodEntity ("data_url") = .null) ∧
    (jsField c1GoodView ("path") = .str ("/news") ∧
      jsField c1GoodView ("data_url") = .str ("/jsonapi/views/news/page_1") ∧
      jsField c1GoodView ("jsonapi_url") = .null) := by
  constructor
  · exact c1_route_normalization.2.1 c1GoodEntity ("/about") ("/jsonapi/node/page/1")
      (by with_unfolding_all rfl)
  · exact c1_route_normalization.2.2 c1GoodView ("/news") ("/jsonapi/views/news/page_1")
      (by with_unfolding_all rfl)

/-- C2 (corrected): for a pagination cursor URL, the origin check runs first
and has no opt-out; whenever the resolved origin differs from the base origin
the fetch fails with the origin-mismatch error, for every transport (i.e.
before any fetch is issued). The unsupported-scheme error is reached only
when the origins are equal — so a non-http(s) absolute URL against an
http(s) base raises the origin-mismatch error, not the scheme error. -/
theorem c2_origin_guard (server : Url → FetchResponse) (base : Url) (ref : UrlRef)
    (limit : Option Nat) (langcode : Option String) :
    (Url.origin (resolveAgainst ref base) ≠ Url.origin base →
      fetchRoutesPage server base (some ref) limit langcode =
        .error (.originMismatch (Url.origin (resolveAgainst ref base)) (Url.origin base))) ∧
    (Url.origin (resolveAgainst ref base) = Url.origin base →
      Url.protocol (resolveAgainst ref base) ≠ "http:" →
      Url.protocol (resolveAgainst ref base) ≠ "https:" →
      fetchRoutesPage server base (some ref) limit langcode =
        .error (.unsupportedScheme (Url.protocol (resolveAgainst ref base)))) := by
  constructor
  · intro h
    simp only [fetchRoutesPage, routesRequestUrl, buildRoutesUrl]
    rw [if_pos h]
  · intro h h1 h2
    simp only [fetchRoutesPage, routesRequestUrl, buildRoutesUrl]
    rw [if_neg (by simp [h]), if_pos ⟨h1, h2⟩]

/-- C2 witness: a cross-origin `https://evil.example.com/x` cursor against
base `https://cms.example.com` fails with the origin-mismatch error for a
live transport stub; an `ftp` cursor against an `ftp` base (equal origins)
reaches the scheme check and fails with the unsupported-scheme error. -/
theorem c2_origin_guard_witness :
    fetchRoutesPage stubServer baseHttps (some (.absolute evilInput)) none none =
      .error (.originMismatch ("https://evil.example.com") ("https://cms.example.com")) ∧
    fetchRoutesPage stubServer baseFtp (some (.absolute ftpInput)) none none =
      .error (.unsupportedScheme ("ftp:")) := by
  constructor
  · exact ((c2_origin_guard stubServer baseHttps (.absolute evilInput) none none).1
      (by decide)).trans (by with_unfolding_all rfl)
  · exact ((c2_origin_guard stubServer baseFtp (.absolute ftpInput) none none).2
      (by decide) (by decide) (by decide)).trans (by with_unfolding_all rfl)

/-- C2 counterexample: the claim (and the spec's example) says
`ftp://cms.example.com/x` against base `https://cms.example.com` raises the
unsupported-scheme error; the code raises the origin-mismatch error instead,
because a WHATWG origin includes the scheme and the origin check runs first. -/
theorem c2_origin_guard_cx :
    fetchRoutesPage stubServer baseHttps (some (.absolute ftpInput)) none none =
      .error (.originMismatch ("ftp://cms.example.com") ("https://cms.example.com")) ∧
    RoutesError.originMismatch ("ftp://cms.example.com") ("https://cms.example.com") ≠
      RoutesError.unsupportedScheme ("ftp:") := by
  exact ⟨by with_unfolding_all rfl, by decide⟩

/-- One unfolding of the collection loop when the fetched page advertises a
non-empty next cursor. -/
theorem collectRoutesAux_step (pageFn : Option String → Except RoutesError RoutesFeedResponse)
    (n : Nat) (cursor : Option String) (page : RoutesFeedResponse) (s : String)
    (hp : pageFn cursor = .ok page) (hn : page.next = some s) (hs : s ≠ "") :
    collectRoutesAux pageFn (n + 1) cursor =
      (match collectRoutesAux pageFn n (some s) with
        | .error e => .error e
        | .ok rest => .ok (page.data ++ rest)) := by
  simp only [collectRoutesAux, hp, hn]
  rw [if_neg hs]

/-- C3 (confirmed): over the three-page fixture feed with page sizes 2, 2, 1
and `next = null` on the last page, `collectRoutes` (at its default ceiling of
10000 pages) returns exactly the 5 entries in page-then-item order; and any
feed whose next chain never yields a falsy cursor exhausts `maxPages = 3`
after the third page and fails with the pagination-overrun error. -/
theorem c3_pagination :
    collectRoutes threePageFeed 10000 =
      .ok [routesE1, routesE2, routesE3, routesE4, routesE5] ∧
    (∀ pageFn : Option String → Except RoutesError RoutesFeedResponse,
      (∀ cursor, ∃ page s, pageFn cursor = .ok page ∧ page.next = some s ∧ s ≠ "") →
      collectRoutes pageFn 3 = .error .overrun) := by
  constructor
  · with_unfolding_all rfl
  · intro pageFn h
    obtain ⟨p0, s0, h0, hn0, hs0⟩ := h none
    obtain ⟨p1, s1, h1, hn1, hs1⟩ := h (some s0)
    obtain ⟨p2, s2, h2, hn2, hs2⟩ := h (some s1)
    show collectRoutesAux pageFn 3 none = .error .overrun
    rw [show (3 : Nat) = 2 + 1 from rfl,
      collectRoutesAux_step pageFn 2 none p0 s0 h0 hn0 hs0,
      show (2 : Nat) = 1 + 1 from rfl,
      collectRoutesAux_step pageFn 1 (some s0) p1 s1 h1 hn1 hs1,
      show (1 : Nat) = 0 + 1 from rfl,
      collectRoutesAux_step pageFn 0 (some s1) p2 s2 h2 hn2 hs2]
    rfl

/-- C3 witness: the looping feed satisfies the never-terminating hypothesis
and overruns `maxPages = 3`. -/
theorem c3_pagination_witness : collectRoutes loopFeed 3 = .error .overrun := by
  exact c3_pagination.2 loopFeed
    (fun _ => ⟨loopPage, "/jsonapi/routes?page=next", rfl, rfl, by decide⟩)

/-- C4 (corrected): when the request URL validates and the response is ok, a
body that is not an object in the JS sense (falsy, or `typeof` not
`"object"`) makes `fetchRoutesPage` fail with the feed-format error; but a
body whose `data` member is not a sequence is NOT an error — the page is
returned with an empty item list. -/
theorem c4_feed_format (server : Url → FetchResponse) (base : Url) (urlInput : Option UrlRef)
    (limit : Option Nat) (langcode : Option String) (u : Url)
    (hu : routesRequestUrl base urlInput limit langcode = .ok u)
    (hok : (server u).ok = true) :
    ((jsTruthy (server u).body && jsTypeofObject (server u).body) = false →
      fetchRoutesPage server base urlInput limit langcode = .error .feedFormat) ∧
    ((jsTruthy (server u).body && jsTypeofObject (server u).body) = true →
      (∀ xs, jsField (server u).body ("data") ≠ .arr xs) →
      ∃ page, fetchRoutesPage server base urlInput limit langcode = .ok page ∧
        page.data = []) := by
  constructor
  · intro hbody
    simp only [fetchRoutesPage, hu, hok, Bool.not_true, Bool.false_eq_true, if_false,
      parseRoutesBody, hbody]
    rfl
  · intro hbody hdata
    have hraw : (∀ xs, jsField (server u).body ("data") ≠ .arr xs) →
        (match jsField (server u).body ("data") with
          | .arr xs => xs
          | _ => ([] : List JsValue)) = [] := by
      intro hd
      cases hv : jsField (server u).body ("data") with
      | arr xs => exact absurd hv (hd xs)
      | undefined => rfl
      | null => rfl
      | bool b => rfl
      | num n => rfl
      | str s => rfl
      | obj fields => rfl
    simp only [fetchRoutesPage, hu, hok, Bool.not_true, Bool.false_eq_true, if_false,
      parseRoutesBody, hbody, hraw hdata]
    exact ⟨_, rfl, rfl⟩

/-- C4 witness: a body that is the JSON string `"nope"` (not an object) gives
the feed-format error; a body `{"data": "x"}` (object, `data` not a
sequence) gives an ok page with no items. -/
theorem c4_feed_format_witness :
    fetchRoutesPage stubServerNonObject baseHttps (some (.relative ("/jsonapi/routes?page=2") []))
        none none = .error .feedFormat ∧
    (∃ page, fetchRoutesPage stubServerBadData baseHttps
        (some (.relative ("/jsonapi/routes?page=2") [])) none none = .ok page ∧
      page.data = []) := by
  constructor
  · exact (c4_feed_format stubServerNonObject baseHttps
      (some (.relative ("/jsonapi/routes?page=2") [])) none none
      (resolveAgainst (.relative ("/jsonapi/routes?page=2") []) baseHttps)
      (by with_unfolding_all rfl) rfl).1 rfl
  · exact (c4_feed_format stubServerBadData baseHttps
      (some (.relative ("/jsonapi/routes?page=2") [])) none none
      (resolveAgainst (.relative ("/jsonapi/routes?page=2") []) baseHttps)
      (by with_unfolding_all rfl) rfl).2 rfl
      (fun xs h => JsValue.noConfusion h)

/-- C4 counterexample: the claim says a `data` member that is not a sequence
makes `fetchRoutesPage` fail with the feed-format error; on the body
`{"data": "x"}` the code instead resolves with a page holding zero items. -/
theorem c4_feed_format_cx :
    fetchRoutesPage stubServerBadData baseHttps (some (.relative ("/jsonapi/routes?page=2") []))
        none none = .ok ⟨[], none, none, none⟩ := by
  with_unfolding_all rfl

/-- The style regex never matches in the empty string. -/
theorem styleMatchAt_nil : styleMatchAt [] = none := by
  with_unfolding_all rfl

/-- If the regex matches at no position, the replace is a no-op, whatever
prefix has been scanned over. -/
theorem stylesSegReplaceAux_eq_none (style : List Char) (acc l : List Char)
    (h : ∀ i, styleMatchAt (l.drop i) = none) : stylesSegReplaceAux style acc l = none := by
  induction l generalizing acc with
  | nil => rfl
  | cons c cs ih =>
    have h0 := h 0
    rw [List.drop_zero] at h0
    simp only [stylesSegReplaceAux, h0]
    rw [ih (c :: acc) (fun i => by have hi := h (i + 1); rwa [List.drop_succ_cons] at hi)]

/-- Substitution is the identity on a replacement text holding no dollar. -/
theorem getSubstitution_no_dollar (matched before after repl : List Char)
    (h : ∀ c ∈ repl, c ≠ '$') : getSubstitution matched before after repl = repl := by
  induction repl with
  | nil => rfl
  | cons c rest ih =>
    have hc : c ≠ '$' := h c (List.mem_cons_self c rest)
    cases rest with
    | nil => rw [getSubstitution, if_neg hc, getSubstitution]
    | cons d rest2 =>
      rw [getSubstitution, if_neg hc, ih (fun e he => h e (List.mem_cons_of_mem c he))]

/-- Having `hasStylesSeg = false` means the style regex matches at no position. -/
theorem hasStylesSeg_false (l : List Char) (h : hasStylesSeg l = false) :
    ∀ i, styleMatchAt (l.drop i) = none := by
  intro i
  by_cases hi : i ≤ l.length
  · unfold hasStylesSeg at h
    rw [List.any_eq_false] at h
    have hm := h i (List.mem_range.mpr (by omega))
    cases hv : styleMatchAt (l.drop i) with
    | none => rfl
    | some pr => rw [hv] at hm; exact absurd rfl hm
  · rw [List.drop_eq_nil_of_le (by omega)]
    exact styleMatchAt_nil

/-- A prefix match at any position makes `subIndex` succeed. -/
theorem subIndex_isSome_of_leadsList (pat : List Char) (l : List Char) (i : Nat)
    (h : leadsList pat (l.drop i) = true) : (subIndex pat l).isSome = true := by
  induction l generalizing i with
  | nil =>
    rw [List.drop_nil] at h
    cases pat with
    | nil => rfl
    | cons p ps => exact absurd h (by simp [leadsList])
  | cons c cs ih =>
    cases i with
    | zero =>
      rw [List.drop_zero] at h
      simp [subIndex, h]
    | succ i =>
      rw [List.drop_succ_cons] at h
      simp only [subIndex]
      by_cases hl : leadsList pat (c :: cs) = true
      · simp [hl]
      · rw [if_neg hl]
        have hc := ih i h
        cases hs : subIndex pat cs with
        | none => rw [hs] at hc; exact absurd hc (by simp)
        | some m => simp [hs]

/-- Leftmost-match characterisation of the replace: if the regex matches at
`i` and at no earlier position, the result keeps the prefix and suffix and
replaces exactly the matched span by the substituted replacement text (the
scanned-over prefix `acc` contributes to the before-match form). -/
theorem stylesSegReplaceAux_least (style l matched rest acc : List Char) (i : Nat)
    (hmin : ∀ j < i, styleMatchAt (l.drop j) = none)
    (hi : styleMatchAt (l.drop i) = some (matched, rest)) :
    stylesSegReplaceAux style acc l =
      some (l.take i ++
        getSubstitution matched (acc.reverse ++ l.take i) rest (stylesPat ++ style ++ ['/']) ++
        rest) := by
  induction l generalizing i acc with
  | nil =>
    rw [List.drop_nil, styleMatchAt_nil] at hi
    exact absurd hi (by simp)
  | cons c cs ih =>
    cases i with
    | zero =>
      rw [List.drop_zero] at hi
      simp only [stylesSegReplaceAux, hi]
      simp
    | succ i =>
      have h0 := hmin 0 (Nat.succ_pos i)
      rw [List.drop_zero] at h0
      rw [List.drop_succ_cons] at hi
      simp only [stylesSegReplaceAux, h0]
      rw [ih (c :: acc) i (fun j hj => by
        have hv := hmin (j + 1) (by omega)
        rwa [List.drop_succ_cons] at hv) hi]
      simp [List.append_assoc]

/-- An absolute https URL resolves to itself. -/
theorem resolveFileUrl_https (r base : String) (h : strStarts r ("https://") = true) :
    resolveFileUrl (some r) base = some r := by
  have hne : r ≠ "" := by
    intro he
    subst he
    exact absurd h (by decide)
  simp [resolveFileUrl, hne, h]

/-- A regex match at some position implies the `/styles/` substring test. -/
theorem containsSub_styles_of_matchAt (l matched rest : List Char) (i : Nat)
    (h : styleMatchAt (l.drop i) = some (matched, rest)) : containsSub l stylesPat = true := by
  unfold containsSub
  apply subIndex_isSome_of_leadsList _ _ i
  by_cases hl : leadsList stylesPat (l.drop i) = true
  · exact hl
  · exfalso
    unfold styleMatchAt at h
    rw [if_neg hl] at h
    exact absurd h (by simp)

/-- C8 (corrected): for a resolvable URL, the rewriter dispatches on the
SUBSTRING `"/styles/"`, not on the presence of a full `/styles/<name>/`
segment: when the substring occurs but the regex `\/styles\/[^\/]+\//` never
matches, the URL is returned unchanged — even if it contains a `/files/`
marker (this is the divergence from the claim); when the regex matches, the
leftmost matched span is replaced by the GetSubstitution expansion of
`/styles/<style>/` (which is the literal rename exactly when the style text
holds no dollar), preserving everything before and after; when the substring
is absent, `styles/<style>/public/` is spliced immediately after the first
`/files/` marker, and the URL is returned unchanged if there is no marker. -/
theorem c8_image_style_url (url style base : String)
    (hurl : strStarts url ("https://") = true) :
    (containsSub url.data stylesPat = true → hasStylesSeg url.data = false →
      getImageStyleUrl url style base = url) ∧
    (∀ i matched rest, (∀ j < i, styleMatchAt (url.data.drop j) = none) →
      styleMatchAt (url.data.drop i) = some (matched, rest) →
      getImageStyleUrl url style base =
        String.mk (url.data.take i ++
          getSubstitution matched (url.data.take i) rest (stylesPat ++ style.data ++ ['/']) ++
          rest)) ∧
    (∀ i matched rest, (∀ j < i, styleMatchAt (url.data.drop j) = none) →
      styleMatchAt (url.data.drop i) = some (matched, rest) →
      (∀ c ∈ style.data, c ≠ '$') →
      getImageStyleUrl url style base =
        String.mk (url.data.take i ++ stylesPat ++ style.data ++ '/' :: rest)) ∧
    (containsSub url.data stylesPat = false →
      getImageStyleUrl url style base = spliceAfterFiles url style) := by
  have hmain : ∀ i matched rest, (∀ j < i, styleMatchAt (url.data.drop j) = none) →
      styleMatchAt (url.data.drop i) = some (matched, rest) →
      getImageStyleUrl url style base =
        String.mk (url.data.take i ++
          getSubstitution matched (url.data.take i) rest (stylesPat ++ style.data ++ ['/']) ++
          rest) := by
    intro i matched rest hmin hi
    unfold getImageStyleUrl
    rw [resolveFileUrl_https url base hurl]
    simp only []
    rw [if_pos (containsSub_styles_of_matchAt _ _ _ _ hi)]
    unfold stylesSegReplace
    rw [stylesSegReplaceAux_least style.data url.data matched rest [] i hmin hi]
    simp
  refine ⟨?_, hmain, ?_, ?_⟩
  · intro hc hseg
    unfold getImageStyleUrl
    rw [resolveFileUrl_https url base hurl]
    simp only []
    rw [if_pos hc]
    unfold stylesSegReplace
    rw [stylesSegReplaceAux_eq_none style.data [] url.data (hasStylesSeg_false _ hseg)]
  · intro i matched rest hmin hi hds
    rw [hmain i matched rest hmin hi,
      getSubstitution_no_dollar matched (url.data.take i) rest (stylesPat ++ style.data ++ ['/'])
        (by
          intro c hcm
          rcases List.mem_append.mp hcm with hcm2 | hcm2
          · rcases List.mem_append.mp hcm2 with hcm3 | hcm3
            · exact (by decide : ∀ c ∈ stylesPat, c ≠ '$') c hcm3
            · exact hds c hcm3
          · exact (by decide : ∀ c ∈ (['/'] : List Char), c ≠ '$') c hcm2)]
    simp
  · intro hc
    unfold getImageStyleUrl
    rw [resolveFileUrl_https url base hurl]
    simp only []
    rw [if_neg (by simp [hc])]
    unfold spliceAfterFiles
    cases subIndex filesPat url.data with
    | none => rfl
    | some i => rfl

/-- C8 witness: the spec examples — splicing a style into a plain file URL,
and re-styling the already-styled URL, whose first full `/styles/<name>/`
span sits at index 43, rewrites only the style segment (the style text
`large` holds no dollar); and a style text consisting of a dollar and an
ampersand exercises the substitution form, duplicating the matched span as
`String.prototype.replace` does. -/
theorem c8_image_style_url_witness :
    getImageStyleUrl ("https://cms.example.com/sites/default/files/a.png") ("thumbnail")
        ("https://cms.example.com") =
      "https://cms.example.com/sites/default/files/styles/thumbnail/public/a.png" ∧
    getImageStyleUrl ("https://cms.example.com/sites/default/files/styles/thumbnail/public/a.png")
        ("large") ("https://cms.example.com") =
      "https://cms.example.com/sites/default/files/styles/large/public/a.png" ∧
    getImageStyleUrl ("https://cms.example.com/files/styles/th/a.png")
        (String.mk ['$', '&']) ("https://cms.example.com") =
      "https://cms.example.com/files/styles//styles/th//a.png" := by
  refine ⟨?_, ?_, ?_⟩
  · exact ((c8_image_style_url ("https://cms.example.com/sites/default/files/a.png")
      ("thumbnail") ("https://cms.example.com") (by decide)).2.2.2 (by decide)).trans (by decide)
  · exact ((c8_image_style_url
      ("https://cms.example.com/sites/default/files/styles/thumbnail/public/a.png")
      ("large") ("https://cms.example.com") (by decide)).2.2.1 43
      (("/styles/thumbnail/").data) (("public/a.png").data)
      (by decide) (by decide) (by decide)).trans (by decide)
  · exact ((c8_image_style_url ("https://cms.example.com/files/styles/th/a.png")
      (String.mk ['$', '&']) ("https://cms.example.com") (by decide)).2.1 29
      (("/styles/th/").data) (("a.png").data)
      (by decide) (by decide)).trans (by decide)

/-- C8 counterexample: `.../files/a/styles/thumb` contains a `/files/` marker
and no full `/styles/<name>/` segment, so the claim mandates the splice; the
code returns the URL unchanged because the substring `"/styles/"` occurs and
the regex never matches. -/
theorem c8_image_style_url_cx :
    getImageStyleUrl ("https://cms.example.com/sites/default/files/a/styles/thumb") ("large")
        ("https://cms.example.com") =
      "https://cms.example.com/sites/default/files/a/styles/thumb" ∧
    containsSub (("https://cms.example.com/sites/default/files/a/styles/thumb").data)
      filesPat = true ∧
    hasStylesSeg (("https://cms.example.com/sites/default/files/a/styles/thumb").data) = false ∧
    spliceAfterFiles ("https://cms.example.com/sites/default/files/a/styles/thumb") ("large") ≠
      "https://cms.example.com/sites/default/files/a/styles/thumb" := by
  exact ⟨by decide, by decide, by decide, by decide⟩

/-- The interleaved scanning loop equals span collection followed by
per-span parsing. -/
theorem tagScan_eq_spans (n : Nat) (s : List Char) :
    tagScan n s = (tagSpans n s).filterMap parseDrupalMediaTag := by
  induction n generalizing s with
  | zero => rfl
  | succ n ih =>
    simp only [tagScan, tagSpans]
    cases subIndex (("<drupal-media").data) s with
    | none => rfl
    | some k =>
      simp only []
      cases subIndex ['>'] (s.drop k) with
      | none => rfl
      | some e =>
        simp only [List.filterMap_cons]
        cases parseDrupalMediaTag ((s.drop k).take (e + 1)) with
        | none => simp [ih]
        | some u => simp [ih]

/-- C9 (corrected): every extracted uuid comes from a span running from a
`<drupal-media` occurrence to the FIRST `>` at or after it (which may lie
beyond the malformed tag itself, swallowing intervening content, including a
following tag); spans without a properly quoted `data-entity-uuid`
contribute nothing and scanning resumes after the span; a tag start with no
`>` anywhere after it ends the whole scan; extracted uuids keep document
order with duplicates preserved. The spec's well-formed example extracts its
single uuid. -/
theorem c9_embedded_media_uuids :
    (∀ html, extractEmbeddedMediaUuids html =
      ((mediaTagSpans html).filterMap parseDrupalMediaTag).map String.mk) ∧
    extractEmbeddedMediaUuids
        ("<p><drupal-media data-entity-uuid=\"abc-123\" data-align=\"center\"></drupal-media></p>") =
      ["abc-123"] := by
  constructor
  · intro html
    unfold extractEmbeddedMediaUuids mediaTagSpans
    rw [tagScan_eq_spans]
  · decide

/-- C9 counterexample: an unterminated first tag followed by a well-formed
second tag — the claim mandates that the malformed tag contributes nothing
and the later tag's `"bbb"` is still extracted; the code's span swallows the
second tag and extracts `"aaa"` from the malformed one instead. -/
theorem c9_embedded_media_uuids_cx :
    extractEmbeddedMediaUuids
        ("<drupal-media data-entity-uuid=\"aaa\" <drupal-media data-entity-uuid=\"bbb\">") =
      ["aaa"] ∧
    (["aaa"] : List String) ≠ ["bbb"] := by
  exact ⟨by decide, by decide⟩
